import Mathlib

set_option maxRecDepth 20000

/-!
Shallow embedding of the codecrafters shell (Rust) core:
the tokenizer / unescaper / pipeline splitter / redirect resolver of
`src/args.rs`, the builtin output-target allocation of `src/redirect.rs`,
and the `exit` / `cd` / `type` builtins with the REPL outcome dispatch of
`src/builtin.rs` and `src/repl.rs`.

Conventions of the embedding:
* Rust `&str` slices indexed by byte offsets are modelled as `List Char`
  slices indexed by character position; the two coincide on ASCII input
  (all inputs the parser treats specially are ASCII characters).
* Rust panics (`unimplemented!`, `unreachable!`, out-of-bounds indexing)
  are modelled by `Option`, with `none` standing for a panic.
* Filesystem / environment access (`PATH` lookup, `is_dir`,
  `canonicalize`, `HOME`) is abstracted into an explicit environment
  record passed to the builtins.
-/

namespace Shell

/-- Decidable equality for `Except`, so concrete parser runs can be
checked by `decide`. -/
instance {ε α : Type} [DecidableEq ε] [DecidableEq α] : DecidableEq (Except ε α) :=
  fun x y =>
    match x, y with
    | .error a, .error b =>
      if h : a = b then isTrue (by rw [h])
      else isFalse (by intro he; cases he; exact h rfl)
    | .ok a, .ok b =>
      if h : a = b then isTrue (by rw [h])
      else isFalse (by intro he; cases he; exact h rfl)
    | .error _, .ok _ => isFalse (by intro h; cases h)
    | .ok _, .error _ => isFalse (by intro h; cases h)

/-- Error enum of `src/args.rs` (the `PipeFollwingPipe` spelling is the
source's own). -/
inductive Error where
  | PipeAtBeginning
  | PipeAtEnd
  | PipeFollwingPipe
  | MissingEndDoubleQuote
  | MissingEndSingleQuote
  | MissingCommand
  deriving DecidableEq, Repr

/-- Character classification enum of `src/args.rs` (`Character`). -/
inductive Character where
  | SingleQuote
  | DoubleQuote
  | WhiteSpace
  | Pipe
  | Other
  deriving DecidableEq, Repr

/-- `Character::map` of `src/args.rs`: only the ASCII space counts as
whitespace here. -/
def Character.map (c : Char) : Character :=
  if c = '\'' then .SingleQuote
  else if c = '"' then .DoubleQuote
  else if c = ' ' then .WhiteSpace
  else if c = '|' then .Pipe
  else .Other

/-- Rust's `char::is_whitespace` (the Unicode `White_Space` property),
used by `split_args` to decide whether a closing quote really closes. -/
def isRustWhitespace (c : Char) : Bool :=
  decide (c.toNat = 0x20 ∨ (0x9 ≤ c.toNat ∧ c.toNat ≤ 0xd) ∨ c.toNat = 0x85 ∨
    c.toNat = 0xa0 ∨ c.toNat = 0x1680 ∨ (0x2000 ≤ c.toNat ∧ c.toNat ≤ 0x200a) ∨
    c.toNat = 0x2028 ∨ c.toNat = 0x2029 ∨ c.toNat = 0x202f ∨ c.toNat = 0x205f ∨
    c.toNat = 0x3000)

/-- Adjacent pairs of a character list, as produced by `tuple_windows()`
over `args_raw.chars()`. -/
def pairsOf (l : List Char) : List (Char × Char) :=
  l.zip l.tail

/-- Slice `raw[a..]` as a string. -/
def sliceFrom (raw : List Char) (a : Nat) : String :=
  String.mk (raw.drop a)

/-- Slice `raw[a..b]` (exclusive upper bound) as a string. -/
def sliceExcl (raw : List Char) (a b : Nat) : String :=
  String.mk ((raw.drop a).take (b - a))

/-- Slice `raw[a..=b]` (inclusive upper bound) as a string. -/
def sliceIncl (raw : List Char) (a b : Nat) : String :=
  String.mk ((raw.drop a).take (b + 1 - a))

/-- Mutable state of the `split_args` scan loop: the current block kind,
the start offset of the current token, and the emitted raw tokens. -/
structure SplitSt where
  block : Character
  last_idx : Nat
  res : List String
  deriving DecidableEq, Repr

/-- One non-escape transition of the `split_args` loop of `src/args.rs`:
the `match (current_block, Character::map(c1))` table, acting at pair
index `idx` with lookahead character `c2`. -/
def splitStep (raw : List Char) (idx : Nat) (c1 c2 : Char) (st : SplitSt) :
    Except Error SplitSt :=
  match st.block, Character.map c1 with
  | .SingleQuote, .SingleQuote =>
    if isRustWhitespace c2 then
      .ok { st with block := .WhiteSpace,
                    res := st.res ++ [sliceIncl raw st.last_idx idx] }
    else
      .ok { st with block := .Other }
  | .SingleQuote, .DoubleQuote => .ok st
  | .SingleQuote, .WhiteSpace => .ok st
  | .SingleQuote, .Pipe => .ok st
  | .SingleQuote, .Other => .ok st
  | .DoubleQuote, .SingleQuote => .ok st
  | .DoubleQuote, .DoubleQuote =>
    if isRustWhitespace c2 then
      .ok { st with block := .WhiteSpace,
                    res := st.res ++ [sliceIncl raw st.last_idx idx] }
    else
      .ok { st with block := .Other }
  | .DoubleQuote, .WhiteSpace => .ok st
  | .DoubleQuote, .Pipe => .ok st
  | .DoubleQuote, .Other => .ok st
  | .WhiteSpace, .SingleQuote => .ok { st with block := .SingleQuote, last_idx := idx }
  | .WhiteSpace, .DoubleQuote => .ok { st with block := .DoubleQuote, last_idx := idx }
  | .WhiteSpace, .WhiteSpace => .ok st
  | .WhiteSpace, .Pipe => .ok { st with block := .Pipe, last_idx := idx }
  | .WhiteSpace, .Other => .ok { st with block := .Other, last_idx := idx }
  | .Other, .SingleQuote => .ok { st with block := .SingleQuote }
  | .Other, .DoubleQuote => .ok { st with block := .DoubleQuote }
  | .Other, .WhiteSpace =>
    .ok { st with block := .WhiteSpace,
                  res := st.res ++ [sliceExcl raw st.last_idx idx] }
  | .Other, .Pipe =>
    .ok { st with block := .Pipe, last_idx := idx,
                  res := st.res ++ [sliceExcl raw st.last_idx idx] }
  | .Other, .Other => .ok st
  | .Pipe, .SingleQuote =>
    .ok { st with block := .SingleQuote, last_idx := idx,
                  res := st.res ++ [sliceExcl raw st.last_idx idx] }
  | .Pipe, .DoubleQuote =>
    .ok { st with block := .DoubleQuote, last_idx := idx,
                  res := st.res ++ [sliceExcl raw st.last_idx idx] }
  | .Pipe, .WhiteSpace =>
    .ok { st with block := .WhiteSpace, last_idx := idx,
                  res := st.res ++ [sliceExcl raw st.last_idx idx] }
  | .Pipe, .Pipe => .error .PipeFollwingPipe
  | .Pipe, .Other =>
    .ok { st with block := .Other, last_idx := idx,
                  res := st.res ++ [sliceExcl raw st.last_idx idx] }

/-- The `split_args` scan loop of `src/args.rs`, iterating over the
enumerated `tuple_windows` pairs.  A leading backslash in a pair protects
the following character: the next pair is skipped (`it.next()`), and a
whitespace block turns into a word starting at this offset. -/
def splitLoop (raw : List Char) (idx : Nat) (l : List (Char × Char)) (st : SplitSt) :
    Except Error SplitSt :=
  match l with
  | [] => .ok st
  | (c1, c2) :: rest =>
    if c1 = '\\' then
      let st' := if st.block = Character.WhiteSpace then
          { st with block := .Other, last_idx := idx } else st
      match rest with
      | [] => .ok st'
      | _ :: rest2 => splitLoop raw (idx + 2) rest2 st'
    else
      match splitStep raw idx c1 c2 st with
      | .error e => .error e
      | .ok st2 => splitLoop raw (idx + 1) rest st2

/-- `split_args` of `src/args.rs`: scan the characters chained with a
synthetic trailing space, then resolve the final block. -/
def split_args (s : String) : Except Error (List String) :=
  let raw := s.data
  match splitLoop raw 0 (pairsOf (raw ++ [' '])) ⟨.WhiteSpace, 0, []⟩ with
  | .error e => .error e
  | .ok st =>
    match st.block with
    | .SingleQuote => .error .MissingEndSingleQuote
    | .DoubleQuote => .error .MissingEndDoubleQuote
    | .Pipe => .error .PipeAtEnd
    | .Other => .ok (st.res ++ [sliceFrom raw st.last_idx])
    | .WhiteSpace => .ok st.res

/-- Phase one of `post_process_args`: find the index of the first
`tuple_windows` pair whose leading character is a quote or backslash
(`processing_required`).  `none` means the token needs no processing. -/
def findSpecial : List (Char × Char) → Option Nat
  | [] => none
  | (c1, _) :: rest =>
    if c1 = '\'' ∨ c1 = '"' ∨ c1 = '\\' then some 0
    else (findSpecial rest).map (· + 1)

/-- Main loop of `post_process_args` of `src/args.rs`, over the remaining
`tuple_windows` pairs.  Returns the built string together with the final
`last_char`; `none` models the `unimplemented!` / `unreachable!` panics of
the source (contexts that are never assigned).  The quoting context reuses
`Character`, with `WhiteSpace` standing for the source's initial
"no context" value, exactly as in the source. -/
def procLoop (ctx : Character) (l : List (Char × Char)) (lc : Option Char)
    (acc : String) : Option (String × Option Char) :=
  match l with
  | [] => some (acc, lc)
  | (c1, c2) :: rest =>
    let lc1 : Option Char := some c2
    if c1 = '\'' then
      match ctx with
      | .SingleQuote => procLoop .WhiteSpace rest lc1 acc
      | .DoubleQuote => procLoop .DoubleQuote rest lc1 (acc.push '\'')
      | .WhiteSpace => procLoop .SingleQuote rest lc1 acc
      | .Other => none
      | .Pipe => none
    else if c1 = '"' then
      match ctx with
      | .SingleQuote => procLoop .SingleQuote rest lc1 (acc.push '"')
      | .DoubleQuote => procLoop .WhiteSpace rest lc1 acc
      | .WhiteSpace => procLoop .DoubleQuote rest lc1 acc
      | .Other => procLoop .Other rest lc1 acc
      | .Pipe => none
    else if c1 = '\\' then
      if c2 = '\\' then
        match rest with
        | [] => some (acc.push '\\', none)
        | (_, d2) :: rest2 => procLoop ctx rest2 (some d2) (acc.push '\\')
      else
        match ctx with
        | .SingleQuote =>
          match rest with
          | [] => some ((acc.push '\\').push c2, lc1)
          | _ :: rest2 => procLoop .SingleQuote rest2 lc1 ((acc.push '\\').push c2)
        | .DoubleQuote =>
          if c2 = '"' then
            match rest with
            | [] => some (acc.push '"', none)
            | (_, d2) :: rest2 => procLoop .DoubleQuote rest2 (some d2) (acc.push '"')
          else
            match rest with
            | [] => some ((acc.push '\\').push c2, none)
            | (_, d2) :: rest2 =>
              procLoop .DoubleQuote rest2 (some d2) ((acc.push '\\').push c2)
        | .WhiteSpace =>
          match rest with
          | [] => some (acc.push c2, none)
          | (_, d2) :: rest2 => procLoop .WhiteSpace rest2 (some d2) (acc.push c2)
        | .Other =>
          match rest with
          | [] => some (acc.push c2, none)
          | (_, d2) :: rest2 => procLoop .Other rest2 (some d2) (acc.push c2)
        | .Pipe => none
    else
      procLoop ctx rest lc1 (acc.push c1)

/-- Final `last_char` handling of `post_process_args`: a pending quote or
backslash is dropped, any other pending character is appended. -/
def finalizeToken (r : String × Option Char) : String :=
  match r.2 with
  | some c => if c = '\'' ∨ c = '"' ∨ c = '\\' then r.1 else r.1.push c
  | none => r.1

/-- `post_process_args` of `src/args.rs`, restricted to one token: the
fast path returns the token unchanged; otherwise the clean prefix is kept
and the main loop resumes at the first special pair. -/
def postProcessToken (t : String) : Option String :=
  let cs := t.data
  let prs := pairsOf cs
  match findSpecial prs with
  | none => some t
  | some k =>
    match procLoop .WhiteSpace (prs.drop k) none (String.mk (cs.take k)) with
    | none => none
    | some r => some (finalizeToken r)

/-- `post_process_args` of `src/args.rs`: unescape every token in place. -/
def post_process_args (args : List String) : Option (Except Error (List String)) :=
  match args.mapM postProcessToken with
  | none => none
  | some l => some (.ok l)

/-- Accumulating loop of `split_pipeline` of `src/args.rs`. -/
def splitPipelineGo : List String → List String → List (List String)
  | [], curr => [curr]
  | a :: rest, curr =>
    if a = "|" then curr :: splitPipelineGo rest []
    else splitPipelineGo rest (curr ++ [a])

/-- `split_pipeline` of `src/args.rs`: split the token list into stages on
tokens equal to the pipe literal, consuming the pipe tokens. -/
def split_pipeline (args : List String) : Except Error (List (List String)) :=
  .ok (splitPipelineGo args [])

/-- `RedirectIO` of `src/args.rs` (which stream a redirect targets). -/
inductive RedirectIo where
  | Stdout
  | Stderr
  deriving DecidableEq, Repr

/-- `Redirect` of `src/args.rs`. -/
structure Redirect where
  «to» : RedirectIo
  append : Bool
  file_path : String
  deriving DecidableEq, Repr

/-- Loop of `Redirect::find_redirect` of `src/args.rs` over adjacent token
pairs, carrying the pair index.  `none` models the `unreachable!` panic on
a pipe token in operator position. -/
def findRedirectGo : Nat → List String → Option (Option (Nat × Redirect))
  | _, [] => some none
  | _, [_] => some none
  | i, op :: fp :: rest =>
    if op = "1>" ∨ op = ">" then some (some (i, ⟨.Stdout, false, fp⟩))
    else if op = "2>" then some (some (i, ⟨.Stderr, false, fp⟩))
    else if op = "1>>" ∨ op = ">>" then some (some (i, ⟨.Stdout, true, fp⟩))
    else if op = "2>>" then some (some (i, ⟨.Stderr, true, fp⟩))
    else if op = "|" then none
    else findRedirectGo (i + 1) (fp :: rest)

/-- `Redirect::find_redirect` of `src/args.rs`. -/
def Redirect.find_redirect (args : List String) : Option (Option (Nat × Redirect)) :=
  findRedirectGo 0 args

/-- `Command` of `src/args.rs`: one pipeline stage. -/
structure Command where
  command : String
  args : List String
  redirect : Option Redirect
  deriving DecidableEq, Repr

/-- `Command::new` of `src/args.rs`: the first token is the command, a
found redirect truncates the remaining tokens at its index. -/
def Command.new (ts : List String) : Option (Except Error Command) :=
  match ts with
  | [] => some (.error .MissingCommand)
  | command :: rest =>
    match Redirect.find_redirect rest with
    | none => none
    | some (some (i, r)) => some (.ok ⟨command, rest.take i, some r⟩)
    | some none => some (.ok ⟨command, rest, none⟩)

/-- The `collect::<Result<Vec<_>, _>>()` over `Command::new` in
`process_args` of `src/args.rs`: stop at the first error. -/
def collectCmds : List (List String) → Option (Except Error (List Command))
  | [] => some (.ok [])
  | stage :: rest =>
    match Command.new stage with
    | none => none
    | some (.error e) => some (.error e)
    | some (.ok c) =>
      match collectCmds rest with
      | none => none
      | some (.error e) => some (.error e)
      | some (.ok cs) => some (.ok (c :: cs))

/-- `process_args_inner` of `src/args.rs`: leading-pipe check, tokenize,
unescape, split into stages. -/
def process_args_inner (s : String) : Option (Except Error (List (List String))) :=
  if s.data.head? = some '|' then some (.error .PipeAtBeginning)
  else
    match split_args s with
    | .error e => some (.error e)
    | .ok toks =>
      match post_process_args toks with
      | none => none
      | some (.error e) => some (.error e)
      | some (.ok toks2) =>
        match split_pipeline toks2 with
        | .error e => some (.error e)
        | .ok stages => some (.ok stages)

/-- `process_args` of `src/args.rs`: parse a line into pipeline stages. -/
def process_args (s : String) : Option (Except Error (List Command)) :=
  match process_args_inner s with
  | none => none
  | some (.error e) => some (.error e)
  | some (.ok stages) => collectCmds stages

/-- Spec-side redirect operator table, written from the spec's words for
comparison with `Redirect.find_redirect` (claim C5): `>`/`1>` stdout
truncate, `2>` stderr truncate, `>>`/`1>>` stdout append, `2>>` stderr
append, anything else is not an operator. -/
def opToRedirect (op fp : String) : Option Redirect :=
  if op = "1>" ∨ op = ">" then some ⟨.Stdout, false, fp⟩
  else if op = "2>" then some ⟨.Stderr, false, fp⟩
  else if op = "1>>" ∨ op = ">>" then some ⟨.Stdout, true, fp⟩
  else if op = "2>>" then some ⟨.Stderr, true, fp⟩
  else none

/-- Spec-side redirect resolution, written from the spec's words (claim
C5): scan adjacent pairs left to right, the first operator-plus-path pair
wins and is returned with its starting index; an operator with nothing
after it, or no such pair, yields no redirect. -/
def specFindRedirectGo : Nat → List String → Option (Nat × Redirect)
  | _, [] => none
  | _, [_] => none
  | i, op :: fp :: rest =>
    match opToRedirect op fp with
    | some r => some (i, r)
    | none => specFindRedirectGo (i + 1) (fp :: rest)

/-- Spec-side redirect resolution entry point (claim C5). -/
def specFindRedirect (args : List String) : Option (Nat × Redirect) :=
  specFindRedirectGo 0 args

/-- Output target of one stream of a stage, as allocated by
`src/redirect.rs`: an opened redirect file, an anonymous in-memory buffer
(`MemFile`), the real terminal stream, or an OS pipe end. -/
inductive StdioTarget where
  | file (path : String) (append : Bool)
  | memBuf
  | terminal
  | piped
  deriving DecidableEq, Repr

/-- The `Redirect` struct of `src/redirect.rs`: the pair of targets
allocated for a stage's stdout and stderr. -/
structure RedirectPair where
  stdout : StdioTarget
  stderr : StdioTarget
  deriving DecidableEq, Repr

/-- `Redirect::<MemFile>::new_builtin` of `src/redirect.rs`: the targets
allocated for a builtin stage.  With a redirect, the targeted stream gets
the opened file and the other stream a fresh `MemFile`; without, both
streams get fresh `MemFile`s. -/
def Redirect.new_builtin : Option Redirect → RedirectPair
  | none => ⟨.memBuf, .memBuf⟩
  | some r =>
    match r.«to» with
    | .Stdout => ⟨.file r.file_path r.append, .memBuf⟩
    | .Stderr => ⟨.memBuf, .file r.file_path r.append⟩

/-- `Redirect::<Stdio>::new_program` of `src/redirect.rs`: the targets for
an external stage; a non-redirected stream is the real terminal stream
only for the last stage, otherwise a fresh OS pipe. -/
def Redirect.new_program (redirect : Option Redirect) (is_last : Bool) : RedirectPair :=
  let lastOr : StdioTarget := if is_last then .terminal else .piped
  match redirect with
  | none => ⟨lastOr, lastOr⟩
  | some r =>
    match r.«to» with
    | .Stdout => ⟨.file r.file_path r.append, lastOr⟩
    | .Stderr => ⟨lastOr, .file r.file_path r.append⟩

/-- `Errors` of `src/builtin.rs` (IO error payloads elided). -/
inductive Errors where
  | ExitCode (n : Int)
  | Shutdown (n : Int)
  | CommandNotFound (s : String)
  | MissingArgument (s : String)
  | IncorrectArgumentType (a b : String)
  | IoError
  | ParseError (e : Error)
  deriving DecidableEq, Repr

/-- Numeric value of an ASCII digit run. -/
def digitsToNat (l : List Char) : Nat :=
  l.foldl (fun a c => a * 10 + (c.toNat - '0'.toNat)) 0

/-- Rust's `str::parse::<i32>()`: optional sign, at least one ASCII digit,
no other characters, value within the `i32` range. -/
def parseI32 (s : String) : Option Int :=
  match s.data with
  | [] => none
  | c :: rest =>
    let sign : Int := if c = '-' then -1 else 1
    let ds : List Char := if c = '+' ∨ c = '-' then rest else c :: rest
    if ds = [] then none
    else if ds.all (fun d => decide (48 ≤ d.toNat ∧ d.toNat ≤ 57)) then
      let v : Int := sign * (digitsToNat ds : Int)
      if -2147483648 ≤ v ∧ v ≤ 2147483647 then some v else none
    else none

/-- `exit::run` of `src/builtin.rs`: no argument is a `MissingArgument`
error, an integer argument is a `Shutdown`, anything else an
`IncorrectArgumentType`. -/
def exit_run (rest : List String) : Except Errors Unit :=
  match rest with
  | [] => .error (.MissingArgument "exit")
  | code :: _ =>
    match parseI32 code with
    | some c => .error (.Shutdown c)
    | none => .error (.IncorrectArgumentType code "integer")

/-- Outcome dispatch of the REPL loop of `src/repl.rs` (lines 754-778),
modelled over the sequence of per-line `run_commands` outcomes: a
`Shutdown(v)` breaks the loop with `shutdown_code = Some(v)`; every other
outcome is reported and the loop continues; exhausting the input
(end-of-input, Ctrl-D) breaks with `shutdown_code = None`. -/
def replLoop : List (Except Errors Unit) → Option Int
  | [] => none
  | r :: rest =>
    match r with
    | .error (.Shutdown v) => some v
    | _ => replLoop rest

/-- Modelled from the spec: the binary's `main`, which maps the
`Option<ExitCode>` returned by `repl()` to the shell's own process exit
code, is not under `src/`; per the spec the exit code equals the code
passed to `exit` and is 0 on normal end-of-input. -/
def shellExitCode (sc : Option Int) : Int :=
  sc.getD 0

/-- Abstracted filesystem / environment collaborators used by the
builtins: `HOME`, `is_dir`, `fs::canonicalize` (with `none` for an IO
error) and the `PATH` executable lookup of `is_program` (with `none` for
not found). -/
structure FsEnv where
  home : String
  isDir : String → Bool
  canonicalizePath : String → Option String
  isProgramPath : String → Option String

/-- The shell `State` of `src/repl.rs` restricted to the field the
modelled builtins touch. -/
structure State where
  path : String
  deriving DecidableEq, Repr

/-- `str::trim_start_matches('~')`: drop every leading tilde. -/
def trimStartTildes (s : String) : String :=
  String.mk (s.data.dropWhile (· = '~'))

/-- `PathBuf::join` on the paths the builtins build: an absolute argument
replaces the base, otherwise it is appended with a separator. -/
def pathJoin (base p : String) : String :=
  if p.data.head? = some '/' then p
  else if p = "" then base
  else base ++ "/" ++ p

/-- Tail of `cd::run` of `src/builtin.rs` after the target path is built:
change into it if it is a directory (canonicalizing), otherwise print the
"No such file or directory" line and succeed. -/
def cdFinish (env : FsEnv) (st : State) (p : String) :
    Option (State × List String × Except Errors Unit) :=
  if env.isDir p then
    match env.canonicalizePath p with
    | some q => some (⟨q⟩, [], .ok ())
    | none => some (st, [], .error .IoError)
  else
    some (st, ["cd: " ++ p ++ ": No such file or directory"], .ok ())

/-- `cd::run` of `src/builtin.rs`: `rest[0]` panics on an empty argument
list (`none`), an empty first argument reaches the explicit
`panic!("new path should not be empty")` (`none`); otherwise the target
is resolved against `HOME`, as absolute, or against the current path. -/
def cd_run (env : FsEnv) (st : State) (rest : List String) :
    Option (State × List String × Except Errors Unit) :=
  match rest with
  | [] => none
  | new :: _ =>
    match new.data.head? with
    | some '~' => cdFinish env st (pathJoin env.home (trimStartTildes new))
    | some '/' => cdFinish env st new
    | some _ => cdFinish env st (pathJoin st.path new)
    | none => none

/-- `Builtins::supported` of `src/builtin.rs`. -/
def supportedBuiltins : List String :=
  ["exit", "echo", "type", "pwd", "cd", "history"]

/-- `btype::run` of `src/builtin.rs`: `rest[0]` panics on an empty
argument list (`none`); otherwise report builtin, resolved program path,
or not found. -/
def btype_run (env : FsEnv) (rest : List String) : Option (List String) :=
  match rest with
  | [] => none
  | com :: _ =>
    if com ∈ supportedBuiltins then some [com ++ " is a shell builtin"]
    else
      match env.isProgramPath com with
      | some v => some [com ++ " is " ++ v]
      | none => some [com ++ " not found"]

end Shell

namespace Shell

/-- The pipeline splitter always produces at least one stage list. -/
theorem splitPipelineGo_ne_nil : ∀ (args curr : List String), splitPipelineGo args curr ≠ []
  | [], _ => by simp [splitPipelineGo]
  | a :: rest, curr => by
    by_cases h : a = "|"
    · simp [splitPipelineGo, h]
    · simpa [splitPipelineGo, h] using splitPipelineGo_ne_nil rest (curr ++ [a])

/-- No stage produced by the pipeline splitter contains a pipe token,
provided the accumulator holds none. -/
theorem splitPipelineGo_no_pipe : ∀ (args curr : List String), "|" ∉ curr →
    ∀ st ∈ splitPipelineGo args curr, "|" ∉ st
  | [], curr, hc => by
    intro st hst
    simp [splitPipelineGo] at hst
    subst hst
    exact hc
  | a :: rest, curr, hc => by
    intro st hst
    by_cases h : a = "|"
    · subst h
      simp [splitPipelineGo] at hst
      rcases hst with rfl | hst
      · exact hc
      · exact splitPipelineGo_no_pipe rest [] (by simp) st hst
    · simp [splitPipelineGo, h] at hst
      have hc' : "|" ∉ curr ++ [a] := by
        intro hm
        rcases List.mem_append.mp hm with hm | hm
        · exact hc hm
        · simp at hm
          exact h hm.symm
      exact splitPipelineGo_no_pipe rest (curr ++ [a]) hc' st hst

/-- Collecting stage commands preserves the number of stages. -/
theorem collectCmds_length : ∀ (stages : List (List String)) (cs : List Command),
    collectCmds stages = some (.ok cs) → cs.length = stages.length
  | [], cs => by
    intro h
    simp [collectCmds] at h
    simp [← h]
  | stage :: rest, cs => by
    intro h
    simp only [collectCmds] at h
    cases hn : Command.new stage with
    | none => rw [hn] at h; simp at h
    | some v =>
      cases v with
      | error e => rw [hn] at h; simp at h
      | ok c =>
        rw [hn] at h
        cases hr : collectCmds rest with
        | none => rw [hr] at h; simp at h
        | some w =>
          cases w with
          | error e => rw [hr] at h; simp at h
          | ok cs' =>
            rw [hr] at h
            simp at h
            have := collectCmds_length rest cs' hr
            simp [← h, this]

/-- A successful command collection means every stage had a token. -/
theorem collectCmds_stage_ne_nil : ∀ (stages : List (List String)) (cs : List Command),
    collectCmds stages = some (.ok cs) → ∀ st ∈ stages, st ≠ []
  | [], _, _ => by simp
  | stage :: rest, cs, h => by
    intro st hst
    simp only [collectCmds] at h
    cases hn : Command.new stage with
    | none => rw [hn] at h; simp at h
    | some v =>
      cases v with
      | error e => rw [hn] at h; simp at h
      | ok c =>
        rw [hn] at h
        cases hr : collectCmds rest with
        | none => rw [hr] at h; simp at h
        | some w =>
          cases w with
          | error e => rw [hr] at h; simp at h
          | ok cs' =>
            rcases List.mem_cons.mp hst with rfl | hst
            · intro he
              rw [he] at hn
              simp [Command.new] at hn
            · exact collectCmds_stage_ne_nil rest cs' hr st hst

/-- A successfully parsed line's stages come from the pipeline splitter. -/
theorem process_args_inner_ok_shape (s : String) (stages : List (List String))
    (h : process_args_inner s = some (.ok stages)) :
    ∃ toks2, stages = splitPipelineGo toks2 [] := by
  unfold process_args_inner at h
  split at h
  · simp at h
  · split at h
    · simp at h
    · split at h
      · simp at h
      · simp at h
      · rename_i toks2 hpp
        split at h
        · rename_i e hsp
          simp [split_pipeline] at hsp
        · rename_i stages2 hsp
          simp [split_pipeline] at hsp
          simp at h
          exact ⟨toks2, by rw [← h, ← hsp]⟩

/-- The source redirect scan agrees with the spec-side scan on stage token
lists free of pipe tokens. -/
theorem findRedirectGo_eq_spec : ∀ (i : Nat) (args : List String), "|" ∉ args →
    findRedirectGo i args = some (specFindRedirectGo i args)
  | _, [], _ => rfl
  | _, [_], _ => rfl
  | i, op :: fp :: rest, h => by
    have hop : op ≠ "|" := by
      intro he
      exact h (by rw [← he]; exact List.mem_cons_self _ _)
    have h' : "|" ∉ fp :: rest := fun hm => h (List.mem_cons_of_mem _ hm)
    have ih := findRedirectGo_eq_spec (i + 1) (fp :: rest) h'
    simp only [findRedirectGo, specFindRedirectGo, opToRedirect]
    by_cases h1 : op = "1>" ∨ op = ">"
    · simp [h1]
    · by_cases h2 : op = "2>"
      · simp [h1, h2]
      · by_cases h3 : op = "1>>" ∨ op = ">>"
        · simp [h1, h2, h3]
        · by_cases h4 : op = "2>>"
          · simp [h1, h2, h3, h4]
          · simp [h1, h2, h3, h4, hop, ih]

/-- The unescaper's first pass finds nothing in a token free of quote and
backslash characters. -/
theorem findSpecial_eq_none : ∀ l : List (Char × Char),
    (∀ p ∈ l, ¬(p.1 = '\'' ∨ p.1 = '"' ∨ p.1 = '\\')) → findSpecial l = none
  | [], _ => rfl
  | (c1, c2) :: rest, h => by
    have h1 := h (c1, c2) (List.mem_cons_self _ _)
    simp only [findSpecial]
    rw [if_neg h1, findSpecial_eq_none rest (fun p hp => h p (List.mem_cons_of_mem _ hp))]
    rfl

/-- A shutdown outcome short-circuits the REPL dispatch at its own code. -/
theorem replLoop_shutdown_at : ∀ (rs : List (Except Errors Unit)),
    (∀ r ∈ rs, ∀ m : Int, r ≠ .error (.Shutdown m)) →
    ∀ (n : Int) (more : List (Except Errors Unit)),
    replLoop (rs ++ .error (.Shutdown n) :: more) = some n
  | [], _ => by intro n more; simp [replLoop]
  | r :: rest, h => by
    intro n more
    have hr := h r (List.mem_cons_self _ _)
    have h' : ∀ x ∈ rest, ∀ m : Int, x ≠ .error (.Shutdown m) :=
      fun x hx => h x (List.mem_cons_of_mem _ hx)
    cases r with
    | ok u => simpa [replLoop] using replLoop_shutdown_at rest h' n more
    | error e =>
      cases e with
      | Shutdown v => exact absurd rfl (hr v)
      | ExitCode v => simpa [replLoop] using replLoop_shutdown_at rest h' n more
      | CommandNotFound s => simpa [replLoop] using replLoop_shutdown_at rest h' n more
      | MissingArgument s => simpa [replLoop] using replLoop_shutdown_at rest h' n more
      | IncorrectArgumentType a b => simpa [replLoop] using replLoop_shutdown_at rest h' n more
      | IoError => simpa [replLoop] using replLoop_shutdown_at rest h' n more
      | ParseError e => simpa [replLoop] using replLoop_shutdown_at rest h' n more

/-- Without a shutdown outcome the REPL dispatch runs to end-of-input. -/
theorem replLoop_eq_none : ∀ (rs : List (Except Errors Unit)),
    (∀ r ∈ rs, ∀ m : Int, r ≠ .error (.Shutdown m)) → replLoop rs = none
  | [], _ => rfl
  | r :: rest, h => by
    have hr := h r (List.mem_cons_self _ _)
    have h' : ∀ x ∈ rest, ∀ m : Int, x ≠ .error (.Shutdown m) :=
      fun x hx => h x (List.mem_cons_of_mem _ hx)
    cases r with
    | ok u => simpa [replLoop] using replLoop_eq_none rest h'
    | error e =>
      cases e with
      | Shutdown v => exact absurd rfl (hr v)
      | ExitCode v => simpa [replLoop] using replLoop_eq_none rest h'
      | CommandNotFound s => simpa [replLoop] using replLoop_eq_none rest h'
      | MissingArgument s => simpa [replLoop] using replLoop_eq_none rest h'
      | IncorrectArgumentType a b => simpa [replLoop] using replLoop_eq_none rest h'
      | IoError => simpa [replLoop] using replLoop_eq_none rest h'
      | ParseError e => simpa [replLoop] using replLoop_eq_none rest h'

/-- The tail of `cd` never panics once a target path is built. -/
theorem cdFinish_ne_none (env : FsEnv) (st : State) (p : String) :
    cdFinish env st p ≠ none := by
  unfold cdFinish
  split
  · cases hc : env.canonicalizePath p <;> simp [hc]
  · simp

end Shell

namespace Shell

/-- Claim C3: parsing an input line fails with `PipeAtBeginning` whenever
the trimmed line starts with a pipe character, with `PipeFollwingPipe`
when a pipe token immediately follows a just-closed pipe token, with
`PipeAtEnd` on a dangling trailing pipe, and with `MissingEndSingleQuote`
or `MissingEndDoubleQuote` on an unterminated quoted span; the error
propagates through `process_args`, so no stage of the line is built. -/
theorem c3_parse_errors :
    (∀ s : String, s.data.head? = some '|' →
      process_args_inner s = some (.error .PipeAtBeginning)) ∧
    process_args_inner "exe|" = some (.error .PipeAtEnd) ∧
    process_args_inner "exe||exe2" = some (.error .PipeFollwingPipe) ∧
    process_args_inner "'abc" = some (.error .MissingEndSingleQuote) ∧
    process_args_inner "\"abc" = some (.error .MissingEndDoubleQuote) ∧
    process_args "exe|" = some (.error .PipeAtEnd) := by
  refine ⟨?_, by decide, by decide, by decide, by decide, by decide⟩
  intro s h
  simp [process_args_inner, h]

/-- Witness for C3 at the concrete line `|exe`. -/
theorem c3_parse_errors_witness :
    process_args_inner "|exe" = some (.error .PipeAtBeginning) :=
  c3_parse_errors.1 "|exe" (by decide)

/-- Claim C6: the output targets allocated for a builtin stage are the
redirect's file for the redirected stream and an anonymous in-memory
buffer for everything else, and never the real terminal stream. -/
theorem c6_builtin_output_target :
    Redirect.new_builtin none = ⟨.memBuf, .memBuf⟩ ∧
    (∀ r : Redirect, r.«to» = .Stdout →
      Redirect.new_builtin (some r) = ⟨.file r.file_path r.append, .memBuf⟩) ∧
    (∀ r : Redirect, r.«to» = .Stderr →
      Redirect.new_builtin (some r) = ⟨.memBuf, .file r.file_path r.append⟩) ∧
    (∀ ro : Option Redirect, (Redirect.new_builtin ro).stdout ≠ .terminal ∧
      (Redirect.new_builtin ro).stderr ≠ .terminal) := by
  refine ⟨rfl, ?_, ?_, ?_⟩
  · intro r h
    simp [Redirect.new_builtin, h]
  · intro r h
    simp [Redirect.new_builtin, h]
  · intro ro
    cases ro with
    | none => simp [Redirect.new_builtin]
    | some r =>
      cases hr : r.«to» <;> simp [Redirect.new_builtin, hr]

/-- Witness for C6 at a concrete stdout redirect. -/
theorem c6_builtin_output_target_witness :
    Redirect.new_builtin (some ⟨.Stdout, false, "out.txt"⟩) =
      ⟨.file "out.txt" false, .memBuf⟩ :=
  c6_builtin_output_target.2.1 ⟨.Stdout, false, "out.txt"⟩ rfl

/-- Claim C7: `exit n` with an integer argument yields `Shutdown n`, which
terminates the REPL dispatch and makes the shell's exit code equal `n`
regardless of later input; `exit` with no argument yields
`MissingArgument` and with a non-integer argument
`IncorrectArgumentType`, neither of which terminates the dispatch; and
exhausting the input without a shutdown gives exit code 0. -/
theorem c7_exit_and_shutdown :
    exit_run [] = .error (.MissingArgument "exit") ∧
    (∀ (s : String) (rest : List String) (n : Int), parseI32 s = some n →
      exit_run (s :: rest) = .error (.Shutdown n)) ∧
    (∀ (s : String) (rest : List String), parseI32 s = none →
      exit_run (s :: rest) = .error (.IncorrectArgumentType s "integer")) ∧
    (∀ (rs more : List (Except Errors Unit)) (n : Int),
      (∀ r ∈ rs, ∀ m : Int, r ≠ .error (.Shutdown m)) →
      shellExitCode (replLoop (rs ++ .error (.Shutdown n) :: more)) = n) ∧
    (∀ rs : List (Except Errors Unit),
      (∀ r ∈ rs, ∀ m : Int, r ≠ .error (.Shutdown m)) →
      shellExitCode (replLoop rs) = 0) ∧
    (∀ (s : String) (rest : List (Except Errors Unit)),
      replLoop (.error (.MissingArgument s) :: rest) = replLoop rest) ∧
    (∀ (a b : String) (rest : List (Except Errors Unit)),
      replLoop (.error (.IncorrectArgumentType a b) :: rest) = replLoop rest) := by
  refine ⟨rfl, ?_, ?_, ?_, ?_, ?_, ?_⟩
  · intro s rest n h
    simp [exit_run, h]
  · intro s rest h
    simp [exit_run, h]
  · intro rs more n h
    rw [replLoop_shutdown_at rs h n more]
    rfl
  · intro rs h
    rw [replLoop_eq_none rs h]
    rfl
  · intro s rest
    rfl
  · intro a b rest
    rfl

/-- Witness for C7: `exit 42` shuts down with code 42, and a dispatch
whose only outcome is that shutdown exits with code 42. -/
theorem c7_exit_and_shutdown_witness :
    exit_run ["42"] = .error (.Shutdown 42) ∧
    shellExitCode (replLoop ([] ++ .error (.Shutdown 42) :: [.ok ()])) = 42 :=
  ⟨c7_exit_and_shutdown.2.1 "42" [] 42 (by decide),
   c7_exit_and_shutdown.2.2.2.1 [] [.ok ()] 42 (by simp)⟩

/-- Claim C8: the unescaper is the identity on clean tokens: a raw token
containing no single-quote, double-quote or backslash character is
returned unchanged. -/
theorem c8_unescape_identity_on_clean (t : String)
    (h : ∀ c ∈ t.data, c ≠ '\'' ∧ c ≠ '"' ∧ c ≠ '\\') :
    postProcessToken t = some t := by
  have hfs : findSpecial (pairsOf t.data) = none := by
    apply findSpecial_eq_none
    intro p hp
    obtain ⟨a, b⟩ := p
    have hmem : a ∈ t.data := (List.of_mem_zip hp).1
    obtain ⟨h1, h2, h3⟩ := h a hmem
    simp [h1, h2, h3]
  simp [postProcessToken, hfs]

/-- Witness for C8 at the clean token `abc`. -/
theorem c8_unescape_identity_on_clean_witness :
    postProcessToken "abc" = some "abc" :=
  c8_unescape_identity_on_clean "abc" (by decide)

/-- Claim C9: a token whose unescaped value is exactly the pipe literal is
consumed as a pipe separator and appears in no stage; in particular the
line `echo '|'` produces an empty second stage and fails with
`MissingCommand`. -/
theorem c9_unescaped_pipe_is_separator :
    (∀ (args st : List String), st ∈ splitPipelineGo args [] → "|" ∉ st) ∧
    process_args "echo '|'" = some (.error .MissingCommand) := by
  refine ⟨?_, by decide⟩
  intro args st hst
  exact splitPipelineGo_no_pipe args [] (by simp) st hst

/-- Witness for C9: the first stage of `echo | x` contains no pipe. -/
theorem c9_unescaped_pipe_is_separator_witness :
    "|" ∉ ["echo"] :=
  c9_unescaped_pipe_is_separator.1 ["echo", "|", "x"] ["echo"]
    (by simp [splitPipelineGo])

/-- Claim C10: `cd` and `type` index `rest[0]` (or reach an explicit
panic) on an empty argument list instead of returning a
`MissingArgument` error, so the panic is only avoided when at least one
argument is supplied ( `cd` additionally needs that argument non-empty). -/
theorem c10_cd_type_unchecked_precondition :
    (∀ (env : FsEnv) (st : State), cd_run env st [] = none) ∧
    (∀ env : FsEnv, btype_run env [] = none) ∧
    (∀ (env : FsEnv) (st : State) (new : String) (rest : List String),
      new.data ≠ [] → cd_run env st (new :: rest) ≠ none) ∧
    (∀ (env : FsEnv) (com : String) (rest : List String),
      btype_run env (com :: rest) ≠ none) := by
  refine ⟨fun env st => rfl, fun env => rfl, ?_, ?_⟩
  · intro env st new rest hnew
    cases hd : new.data with
    | nil => exact absurd hd hnew
    | cons c cl =>
      simp only [cd_run, hd, List.head?]
      split
      · exact cdFinish_ne_none _ _ _
      · exact cdFinish_ne_none _ _ _
      · exact cdFinish_ne_none _ _ _
      · simp_all
  · intro env com rest
    simp only [btype_run]
    by_cases h : com ∈ supportedBuiltins
    · simp [h]
    · cases hp : env.isProgramPath com <;> simp [h, hp]

/-- Witness for C10: with a concrete environment, `cd x` and `type ls` do
not panic. -/
theorem c10_cd_type_unchecked_precondition_witness :
    cd_run ⟨"/home/u", fun _ => false, fun _ => none, fun _ => none⟩ ⟨"/"⟩ ["x"] ≠ none ∧
    btype_run ⟨"/home/u", fun _ => false, fun _ => none, fun _ => none⟩ ["ls"] ≠ none :=
  ⟨c10_cd_type_unchecked_precondition.2.2.1 _ _ "x" [] (by decide),
   c10_cd_type_unchecked_precondition.2.2.2 _ "ls" []⟩

end Shell

namespace Shell

/-- Claim C1: in the tokenizer a closing quote ends its quoted span only
when the character immediately following it is whitespace (the synthetic
trailing space plays the role of end-of-input); otherwise the span
continues as an unquoted word, so adjacent segments glue into one token.
Consequently `'AA    ''BB' 'CC'` parses to exactly `["AA    BB", "CC"]`
and `"AA""BB" "CC"` to exactly `["AABB", "CC"]`. -/
theorem c1_quote_close_and_concatenation :
    (∀ (raw : List Char) (idx : Nat) (c2 : Char) (li : Nat) (res : List String),
      isRustWhitespace c2 = false →
      splitStep raw idx '\'' c2 ⟨.SingleQuote, li, res⟩ = .ok ⟨.Other, li, res⟩) ∧
    (∀ (raw : List Char) (idx : Nat) (c2 : Char) (li : Nat) (res : List String),
      isRustWhitespace c2 = true →
      splitStep raw idx '\'' c2 ⟨.SingleQuote, li, res⟩ =
        .ok ⟨.WhiteSpace, li, res ++ [sliceIncl raw li idx]⟩) ∧
    (∀ (raw : List Char) (idx : Nat) (c2 : Char) (li : Nat) (res : List String),
      isRustWhitespace c2 = false →
      splitStep raw idx '"' c2 ⟨.DoubleQuote, li, res⟩ = .ok ⟨.Other, li, res⟩) ∧
    (∀ (raw : List Char) (idx : Nat) (c2 : Char) (li : Nat) (res : List String),
      isRustWhitespace c2 = true →
      splitStep raw idx '"' c2 ⟨.DoubleQuote, li, res⟩ =
        .ok ⟨.WhiteSpace, li, res ++ [sliceIncl raw li idx]⟩) ∧
    process_args_inner "'AA    ''BB' 'CC'" = some (.ok [["AA    BB", "CC"]]) ∧
    process_args_inner "\"AA\"\"BB\" \"CC\"" = some (.ok [["AABB", "CC"]]) := by
  refine ⟨?_, ?_, ?_, ?_, by decide, by decide⟩
  all_goals intro raw idx c2 li res h
  all_goals simp [splitStep, Character.map, h]

/-- Witness for C1: a closing single quote followed by a non-whitespace
character keeps the token open. -/
theorem c1_quote_close_and_concatenation_witness :
    splitStep [] 0 '\'' 'x' ⟨.SingleQuote, 0, []⟩ = .ok ⟨.Other, 0, []⟩ :=
  c1_quote_close_and_concatenation.1 [] 0 'x' 0 [] (by decide)

/-- Claim C2: in the unescaper a backslash-backslash pair collapses to one
literal backslash in every quoting context; a backslash before any other
character `x` emits backslash-then-`x` inside single quotes, emits `x`
alone for a double quote inside double quotes and backslash-then-`x`
otherwise, and emits `x` alone outside quotes; hence
`world\ \ \ script` parses to the single argument `world   script` and
`/tmp/file\\name` to `/tmp/file\name`. -/
theorem c2_unescape_backslash_rules :
    (∀ (ctx : Character) (lc : Option Char) (acc : String),
      procLoop ctx [('\\', '\\')] lc acc = some (acc.push '\\', none)) ∧
    (∀ (ctx : Character) (p : Char × Char) (ps : List (Char × Char))
      (lc : Option Char) (acc : String),
      procLoop ctx (('\\', '\\') :: p :: ps) lc acc =
        procLoop ctx ps (some p.2) (acc.push '\\')) ∧
    (∀ (x : Char) (lc : Option Char) (acc : String), x ≠ '\\' →
      procLoop .SingleQuote [('\\', x)] lc acc =
        some ((acc.push '\\').push x, some x)) ∧
    (∀ (x : Char) (p : Char × Char) (ps : List (Char × Char))
      (lc : Option Char) (acc : String), x ≠ '\\' →
      procLoop .SingleQuote (('\\', x) :: p :: ps) lc acc =
        procLoop .SingleQuote ps (some x) ((acc.push '\\').push x)) ∧
    (∀ (p : Char × Char) (ps : List (Char × Char)) (lc : Option Char) (acc : String),
      procLoop .DoubleQuote (('\\', '"') :: p :: ps) lc acc =
        procLoop .DoubleQuote ps (some p.2) (acc.push '"')) ∧
    (∀ (x : Char) (p : Char × Char) (ps : List (Char × Char))
      (lc : Option Char) (acc : String), x ≠ '\\' → x ≠ '"' →
      procLoop .DoubleQuote (('\\', x) :: p :: ps) lc acc =
        procLoop .DoubleQuote ps (some p.2) ((acc.push '\\').push x)) ∧
    (∀ (x : Char) (p : Char × Char) (ps : List (Char × Char))
      (lc : Option Char) (acc : String), x ≠ '\\' →
      procLoop .WhiteSpace (('\\', x) :: p :: ps) lc acc =
        procLoop .WhiteSpace ps (some p.2) (acc.push x)) ∧
    process_args_inner "world\\ \\ \\ script" = some (.ok [["world   script"]]) ∧
    process_args_inner "/tmp/file\\\\name" = some (.ok [["/tmp/file\\name"]]) := by
  refine ⟨?_, ?_, ?_, ?_, ?_, ?_, ?_, by decide, by decide⟩
  · intro ctx lc acc
    cases ctx <;> rfl
  · intro ctx p ps lc acc
    obtain ⟨d1, d2⟩ := p
    cases ctx <;> rfl
  · intro x lc acc hx
    simp [procLoop, hx]
  · intro x p ps lc acc hx
    obtain ⟨d1, d2⟩ := p
    simp [procLoop, hx]
  · intro p ps lc acc
    obtain ⟨d1, d2⟩ := p
    rfl
  · intro x p ps lc acc hx hq
    obtain ⟨d1, d2⟩ := p
    simp [procLoop, hx, hq]
  · intro x p ps lc acc hx
    obtain ⟨d1, d2⟩ := p
    simp [procLoop, hx]

/-- Witness for C2: a backslash-escaped space outside quotes becomes a
plain space. -/
theorem c2_unescape_backslash_rules_witness :
    procLoop .WhiteSpace [('\\', ' '), ('a', 'b')] none "w" =
      procLoop .WhiteSpace [] (some 'b') "w " :=
  c2_unescape_backslash_rules.2.2.2.2.2.2.1 ' ' ('a', 'b') [] none "w" (by decide)

/-- Counterexample to claim C4 as stated: the line `''` parses
successfully into a pipeline whose single stage has an empty command
string. -/
theorem c4_counterexample_empty_command :
    ∃ cs : List Command, process_args "''" = some (.ok cs) ∧
      ∃ c ∈ cs, c.command = "" :=
  ⟨[⟨"", [], none⟩], by decide, ⟨"", [], none⟩, by simp, rfl⟩

/-- Claim C4 (amended): for every input line that parses successfully the
pipeline is a non-empty list of stages and every stage was built from a
non-empty token list (the command token exists but may be the empty
string); stage construction fails with `MissingCommand` exactly when the
stage's token list is empty. -/
theorem c4_pipeline_nonempty_missing_command :
    (∀ (s : String) (cs : List Command), process_args s = some (.ok cs) → cs ≠ []) ∧
    (∀ (stages : List (List String)) (cs : List Command),
      collectCmds stages = some (.ok cs) → ∀ st ∈ stages, st ≠ []) ∧
    (∀ st : List String,
      Command.new st = some (.error .MissingCommand) ↔ st = []) := by
  refine ⟨?_, collectCmds_stage_ne_nil, ?_⟩
  · intro s cs h
    unfold process_args at h
    cases hin : process_args_inner s with
    | none => rw [hin] at h; simp at h
    | some v =>
      cases v with
      | error e => rw [hin] at h; simp at h
      | ok stages =>
        rw [hin] at h
        obtain ⟨toks2, rfl⟩ := process_args_inner_ok_shape s stages hin
        have hlen := collectCmds_length _ _ h
        intro hcs
        subst hcs
        simp at hlen
        exact splitPipelineGo_ne_nil toks2 [] (List.length_eq_zero.mp hlen.symm)
  · intro st
    constructor
    · intro h
      cases st with
      | nil => rfl
      | cons a rest =>
        simp only [Command.new] at h
        cases hr : Redirect.find_redirect rest with
        | none => rw [hr] at h; simp at h
        | some o =>
          cases o with
          | none => rw [hr] at h; simp at h
          | some p => rw [hr] at h; simp at h
    · intro h
      subst h
      rfl

/-- Witness for C4: the single-stage parse of `exe` is non-empty. -/
theorem c4_pipeline_nonempty_missing_command_witness :
    process_args "exe" = some (.ok [⟨"exe", [], none⟩]) ∧
    ([⟨"exe", [], none⟩] : List Command) ≠ [] :=
  ⟨by decide, c4_pipeline_nonempty_missing_command.1 "exe" [⟨"exe", [], none⟩] (by decide)⟩

/-- Claim C5: redirect resolution over a stage's argument tokens agrees
with the spec-side left-to-right scan for the six operators (on token
lists free of pipe tokens, as produced by the pipeline splitter); the
stage's argument list is truncated at the winning operator's index, a
missing pair leaves the full argument list, and the stage
`["echo","hi",">","out.txt"]` resolves to args `["hi"]` with a stdout
non-append redirect to `out.txt`. -/
theorem c5_redirect_resolution :
    (∀ args : List String, "|" ∉ args →
      Redirect.find_redirect args = some (specFindRedirect args)) ∧
    (∀ (cmd : String) (rest : List String) (i : Nat) (r : Redirect), "|" ∉ rest →
      specFindRedirect rest = some (i, r) →
      Command.new (cmd :: rest) = some (.ok ⟨cmd, rest.take i, some r⟩)) ∧
    (∀ (cmd : String) (rest : List String), "|" ∉ rest →
      specFindRedirect rest = none →
      Command.new (cmd :: rest) = some (.ok ⟨cmd, rest, none⟩)) ∧
    Command.new ["echo", "hi", ">", "out.txt"] =
      some (.ok ⟨"echo", ["hi"], some ⟨.Stdout, false, "out.txt"⟩⟩) := by
  refine ⟨?_, ?_, ?_, by decide⟩
  · intro args h
    exact findRedirectGo_eq_spec 0 args h
  · intro cmd rest i r h hsp
    have := findRedirectGo_eq_spec 0 rest h
    simp only [Command.new, Redirect.find_redirect, this, specFindRedirect] at *
    rw [hsp]
  · intro cmd rest h hsp
    have := findRedirectGo_eq_spec 0 rest h
    simp only [Command.new, Redirect.find_redirect, this, specFindRedirect] at *
    rw [hsp]

/-- Witness for C5 at the concrete stage `echo hi > out.txt`. -/
theorem c5_redirect_resolution_witness :
    Command.new ["echo", "hi", ">", "out.txt"] =
      some (.ok ⟨"echo", ["hi"].take 1, some ⟨.Stdout, false, "out.txt"⟩⟩) := by
  have := c5_redirect_resolution.2.1 "echo" ["hi", ">", "out.txt"] 1
    ⟨.Stdout, false, "out.txt"⟩ (by decide) (by decide)
  simpa using this

end Shell
